import Mathlib

set_option maxHeartbeats 3200000

/-!
Verification of the MadMiner morphing engine specification.

The repository ships the tutorial notebook `1_setup.ipynb`, which drives the
morphing engine (parameter registry, component enumerator, basis optimizer,
weight solver, persistence).  The engine implementation itself is not part of
the source tree; every definition below is therefore modelled from the
specification document, with the notebook's recorded outputs (parameter log
lines, component and basis-point counts) as concrete ground truth.  Real
numbers are embedded as rationals so that all definitions are executable and
the linear algebra is exact.
-/

namespace MadMiner

/-- Modelled from the spec: the error conditions of the morphing engine
(sections 4.1, 4.2, 4.4, 4.5, 6 of the specification). -/
inductive MorphError where
  | DuplicateParameterError
  | InvalidRangeError
  | InvalidPowerError
  | UnknownParameterError
  | MissingParameterError
  | DuplicateBenchmarkError
  | SingularBasisError
  | StaleBasisError
  deriving DecidableEq, Repr

/-- Modelled from the spec: a theory parameter.  The maximum individual power
is stored as a tuple with one entry per power class (the notebook log shows a
scalar input `morphing_max_power=2` reported back as `(2,)`). -/
structure Parameter where
  name : String
  lhaBlock : String
  lhaId : Int
  maxPower : List Nat
  range : ℚ × ℚ
  transform : Option String
  deriving DecidableEq, Repr

/-- Modelled from the spec: a named point in parameter space, a mapping from
parameter name to value. -/
structure Benchmark where
  name : String
  values : List (String × ℚ)
  deriving DecidableEq, Repr

/-- Modelled from the spec: the committed morphing setup — the ordered
component list, the ordered basis, and the overall power cap that generated
the components. -/
structure Morpher where
  components : List (List Nat)
  basis : List Benchmark
  maxOverallPower : Nat
  deriving DecidableEq, Repr

/-- Modelled from the spec: the engine state — parameter registry, benchmark
registry, and the optional committed morphing setup. -/
structure MadMinerState where
  parameters : List Parameter
  benchmarks : List Benchmark
  morpher : Option Morpher
  deriving DecidableEq, Repr

/-- The caller-facing form of `morphing_max_power`: either a scalar or a
tuple with one entry per power class. -/
inductive MaxPowerInput where
  | scalar (p : Int)
  | tuple (ps : List Int)
  deriving DecidableEq, Repr

/-- Modelled from the spec: normalization of the supplied maximum power.  A
scalar `p` is recorded as the one-element tuple `(p,)`; any negative entry is
rejected (`max_power` must be a non-negative integer). -/
def normalizeMaxPower : MaxPowerInput → Option (List Nat)
  | MaxPowerInput.scalar p => if p < 0 then none else some [p.toNat]
  | MaxPowerInput.tuple ps => if ps.any (fun q => q < 0) then none else some (ps.map Int.toNat)

/-- The names of the registered parameters, in registration order. -/
def paramNames (ps : List Parameter) : List String :=
  ps.map Parameter.name

/-- The names of the registered benchmarks, in registration order. -/
def benchmarkNames (bs : List Benchmark) : List String :=
  bs.map Benchmark.name

/-- Modelled from the spec (4.1): `add_parameter`.  Rejects duplicate names,
an empty or reversed range, and a negative maximum power; otherwise appends
the parameter (with its maximum power normalized to a per-class tuple). -/
def add_parameter (st : MadMinerState) (lhaBlock : String) (lhaId : Int)
    (parameterName : String) (morphingMaxPower : MaxPowerInput)
    (parameterRange : ℚ × ℚ) (paramCardTransform : Option String) :
    Except MorphError MadMinerState :=
  if parameterName ∈ paramNames st.parameters then
    Except.error MorphError.DuplicateParameterError
  else if ¬ parameterRange.1 < parameterRange.2 then
    Except.error MorphError.InvalidRangeError
  else
    match normalizeMaxPower morphingMaxPower with
    | none => Except.error MorphError.InvalidPowerError
    | some ps =>
        Except.ok (MadMinerState.mk
          (st.parameters ++
            [Parameter.mk parameterName lhaBlock lhaId ps parameterRange paramCardTransform])
          st.benchmarks st.morpher)

/-- Look up a parameter value in a benchmark's name-to-value mapping. -/
def lookupValue (values : List (String × ℚ)) (n : String) : Option ℚ :=
  (values.find? (fun kv => kv.1 == n)).map Prod.snd

/-- Modelled from the spec (4.2): `add_benchmark`.  Rejects values that
reference an unregistered parameter, values that omit a registered parameter,
and duplicate benchmark names; values are not range-checked. -/
def add_benchmark (st : MadMinerState) (values : List (String × ℚ))
    (benchmarkName : String) : Except MorphError MadMinerState :=
  if ¬ values.all (fun kv => (paramNames st.parameters).contains kv.1) then
    Except.error MorphError.UnknownParameterError
  else if ¬ (paramNames st.parameters).all (fun n => (lookupValue values n).isSome) then
    Except.error MorphError.MissingParameterError
  else if benchmarkName ∈ benchmarkNames st.benchmarks then
    Except.error MorphError.DuplicateBenchmarkError
  else
    Except.ok (MadMinerState.mk st.parameters
      (st.benchmarks ++ [Benchmark.mk benchmarkName values]) st.morpher)

/-- Modelled from the spec (4.3): `enumerate_components`.  Generates every
exponent tuple `(e_1, ..., e_n)` with `0 ≤ e_i ≤ maxPowers[i]` and
`sum e_i ≤ cap`, in lexicographic order. -/
def enumerate_components : List Nat → Nat → List (List Nat)
  | [], _ => [[]]
  | p :: ps, cap =>
      (List.range (min p cap + 1)).flatMap fun e =>
        (enumerate_components ps (cap - e)).map (fun t => e :: t)

/-- The single-class maximum power of each registered parameter, in
registration order (first entry of the per-class tuple). -/
def paramMaxPowers (params : List Parameter) : List Nat :=
  params.map fun p => p.maxPower.headD 0

/-- The monomial value of an exponent tuple at a point, coordinate by
coordinate. -/
def monomial (point : List ℚ) (exponents : List Nat) : ℚ :=
  (List.zipWith (fun x e => x ^ e) point exponents).prod

/-- The coordinates of a benchmark in registered-parameter order. -/
def benchmarkPoint (params : List Parameter) (b : Benchmark) : List ℚ :=
  params.map fun p => (lookupValue b.values p.name).getD 0

/-- The square design matrix of a basis: entry `(c, b)` is the `c`-th
component monomial evaluated at the `b`-th basis point. -/
def designMatrix (n : Nat) (comps : Fin n → List Nat) (pts : Fin n → List ℚ) :
    Matrix (Fin n) (Fin n) ℚ :=
  Matrix.of fun c b => monomial (pts b) (comps c)

/-- The component-evaluation vector of a query point. -/
def componentVector (n : Nat) (comps : Fin n → List Nat) (query : List ℚ) :
    Fin n → ℚ :=
  fun c => monomial query (comps c)

/-- Modelled from the spec (4.5): `weights_at` solves the linear system
whose rows say that the weighted sum of the basis monomial values reproduces
the query-point monomial value for every component.  The solution is written
with the adjugate so that it is executable and exact over ℚ. -/
def weights_at (n : Nat) (comps : Fin n → List Nat) (pts : Fin n → List ℚ)
    (query : List ℚ) : Fin n → ℚ :=
  (designMatrix n comps pts).det⁻¹ •
    (designMatrix n comps pts).adjugate.mulVec (componentVector n comps query)

/-- Coordinate `i` of the `j`-th optimizer-generated point: evenly spread
inside the declared range, offset by the coordinate index so that distinct
parameters receive distinct fractions. -/
def newBasisPoint (params : List Parameter) (numNew j : Nat) : List ℚ :=
  params.enum.map fun pi =>
    pi.2.range.1 + (pi.2.range.2 - pi.2.range.1) * ((j : ℚ) + (pi.1 : ℚ) + 1) /
      ((params.length : ℚ) + (numNew : ℚ) + 1)

/-- The `j`-th optimizer-generated benchmark. -/
def newBenchmark (params : List Parameter) (numNew j : Nat) : Benchmark :=
  Benchmark.mk ("morphing_basis_vector_" ++ toString j)
    ((paramNames params).zip (newBasisPoint params numNew j))

/-- Modelled from the spec (4.4): `optimize_basis`.  With `keepExisting` the
caller-supplied benchmarks are retained unconditionally, in order, and only
`len components - len existing` new points are chosen; without it a full
basis of `len components` points is selected from scratch.  The search used
by the original tool is unspecified; the model stands in a deterministic
choice of points inside the declared ranges. -/
def optimize_basis (params : List Parameter) (components : List (List Nat))
    (existingBenchmarks : List Benchmark) (keepExisting : Bool) :
    List Benchmark :=
  let kept := if keepExisting then existingBenchmarks else []
  let numNew := components.length - kept.length
  kept ++ (List.range numNew).map (newBenchmark params numNew)

/-- The optimizer run as a state transition: it returns the candidate basis
and leaves the registries untouched (the spec: no side effect beyond the
returned list; the caller commits the basis). -/
def runOptimizer (st : MadMinerState) (keepExisting : Bool)
    (components : List (List Nat)) : List Benchmark × MadMinerState :=
  (optimize_basis st.parameters components st.benchmarks keepExisting, st)

/-- Modelled from the spec / notebook: `set_morphing` enumerates the
components from the registered parameters and the overall cap, runs the
optimizer, and commits the resulting basis. -/
def set_morphing (st : MadMinerState) (includeExistingBenchmarks : Bool)
    (maxOverallPower : Nat) : MadMinerState :=
  let comps := enumerate_components (paramMaxPowers st.parameters) maxOverallPower
  let basis := optimize_basis st.parameters comps st.benchmarks includeExistingBenchmarks
  MadMinerState.mk st.parameters basis (some (Morpher.mk comps basis maxOverallPower))

/-- Modelled from the spec (6): the persisted setup. -/
structure SavedSetup where
  parameters : List Parameter
  components : List (List Nat)
  basis : List Benchmark
  maxOverallPower : Nat
  deriving DecidableEq, Repr

/-- Modelled from the spec / notebook: `save` captures the parameter
definitions, the ordered component list, the ordered basis, and the cap. -/
def save (st : MadMinerState) : Option SavedSetup :=
  st.morpher.map fun m =>
    SavedSetup.mk st.parameters m.components m.basis m.maxOverallPower

/-- Modelled from the spec (6): `load` recomputes the component enumeration
from the loaded parameter definitions and rejects the file with
`StaleBasisError` on mismatch. -/
def load (s : SavedSetup) : Except MorphError MadMinerState :=
  if enumerate_components (paramMaxPowers s.parameters) s.maxOverallPower = s.components then
    Except.ok (MadMinerState.mk s.parameters s.basis
      (some (Morpher.mk s.components s.basis s.maxOverallPower)))
  else
    Except.error MorphError.StaleBasisError

/-- The list of weights at a query point for a committed morphing setup. -/
def morphWeights (params : List Parameter) (m : Morpher) (query : List ℚ) :
    List ℚ :=
  List.ofFn (weights_at m.components.length
    (fun i => m.components.get i)
    (fun i => (m.basis.map (benchmarkPoint params)).getD i.val [])
    query)

/-! ### Component enumeration lemmas -/

/-- Membership in the component enumeration is exactly the per-parameter and
overall power bounds. -/
theorem mem_enumerate_components {ps : List Nat} {cap : Nat} {c : List Nat} :
    c ∈ enumerate_components ps cap ↔
      List.Forall₂ (· ≤ ·) c ps ∧ c.sum ≤ cap := by
  induction ps generalizing cap c with
  | nil =>
      constructor
      · intro h
        simp only [enumerate_components, List.mem_singleton] at h
        subst h
        exact ⟨List.Forall₂.nil, Nat.zero_le _⟩
      · rintro ⟨h, -⟩
        rw [List.forall₂_nil_right_iff] at h
        subst h
        simp [enumerate_components]
  | cons p ps ih =>
      constructor
      · intro h
        simp only [enumerate_components, List.mem_flatMap, List.mem_range,
          List.mem_map] at h
        obtain ⟨e, he, t, ht, rfl⟩ := h
        obtain ⟨hf, hs⟩ := ih.mp ht
        have hep : e ≤ p := by omega
        have hec : e ≤ cap := by omega
        refine ⟨List.Forall₂.cons hep hf, ?_⟩
        simp only [List.sum_cons]
        omega
      · rintro ⟨hf, hsum⟩
        cases hf with
        | cons hep htail =>
            simp only [List.sum_cons] at hsum
            simp only [enumerate_components, List.mem_flatMap, List.mem_range,
              List.mem_map]
            exact ⟨_, by omega, _, ih.mpr ⟨htail, by omega⟩, rfl⟩

/-- Strict lexicographic order on lists of naturals is irreflexive. -/
theorem lex_lt_irrefl (l : List Nat) : ¬ List.Lex (· < ·) l l := by
  induction l with
  | nil => intro h; cases h
  | cons a t ih =>
      intro h
      cases h with
      | cons h => exact ih h
      | rel h => exact lt_irrefl a h

/-- The component enumeration is strictly sorted in lexicographic order. -/
theorem enumerate_components_sorted (ps : List Nat) (cap : Nat) :
    (enumerate_components ps cap).Pairwise (List.Lex (· < ·)) := by
  induction ps generalizing cap with
  | nil => simp [enumerate_components]
  | cons p ps ih =>
      rw [enumerate_components]
      refine List.pairwise_flatMap.mpr ⟨?_, ?_⟩
      · intro e _
        exact List.pairwise_map.mpr ((ih _).imp fun h => List.Lex.cons h)
      · refine (List.pairwise_lt_range _).imp ?_
        intro e1 e2 hlt x hx y hy
        obtain ⟨t, -, rfl⟩ := List.mem_map.mp hx
        obtain ⟨t', -, rfl⟩ := List.mem_map.mp hy
        exact List.Lex.rel hlt

/-- The component enumeration contains no duplicate tuples. -/
theorem enumerate_components_nodup (ps : List Nat) (cap : Nat) :
    (enumerate_components ps cap).Nodup :=
  (enumerate_components_sorted ps cap).imp fun h heq =>
    absurd (heq ▸ h) (lex_lt_irrefl _)

/-! ### Monomial lemmas -/

/-- Monomial evaluation splits off the leading coordinate. -/
theorem monomial_cons (x : ℚ) (p : List ℚ) (e : Nat) (es : List Nat) :
    monomial (x :: p) (e :: es) = x ^ e * monomial p es := by
  simp [monomial]

/-- The all-zero exponent tuple evaluates to the constant 1. -/
theorem monomial_all_zero :
    ∀ (p : List ℚ) (es : List Nat), (∀ e ∈ es, e = 0) → monomial p es = 1
  | _, [], _ => by simp [monomial]
  | [], _ :: _, _ => by simp [monomial]
  | x :: p, e :: es, h => by
      have he : e = 0 := h e (List.mem_cons_self e es)
      rw [monomial_cons, he, pow_zero, one_mul]
      exact monomial_all_zero p es fun e' he' => h e' (List.mem_cons_of_mem _ he')

/-! ### Weight solver lemmas -/

/-- The adjugate-form weights solve the design linear system whenever the
design matrix is nonsingular. -/
theorem weights_at_solves (n : Nat) (comps : Fin n → List Nat)
    (pts : Fin n → List ℚ) (query : List ℚ)
    (h : (designMatrix n comps pts).det ≠ 0) :
    (designMatrix n comps pts).mulVec (weights_at n comps pts query) =
      componentVector n comps query := by
  unfold weights_at
  rw [Matrix.mulVec_smul, Matrix.mulVec_mulVec, Matrix.mul_adjugate,
    Matrix.smul_mulVec_assoc, Matrix.one_mulVec, smul_smul,
    inv_mul_cancel₀ h, one_smul]

/-! ### The tutorial scenario

The exact calls of `1_setup.ipynb`: two parameters with scalar maximum power
2 and range (-20, 20), five explicit benchmarks, then morphing with the
existing benchmarks kept and overall power cap 2. -/

/-- The empty engine state. -/
def emptyState : MadMinerState := MadMinerState.mk [] [] none

/-- The notebook's setup script, step by step. -/
def tutorialSetup : Except MorphError MadMinerState := do
  let st1 ← add_parameter emptyState "dim6" 2 "CWL2" (MaxPowerInput.scalar 2)
    (-20, 20) (some "16.52*theta")
  let st2 ← add_parameter st1 "dim6" 5 "CPWL2" (MaxPowerInput.scalar 2)
    (-20, 20) (some "16.52*theta")
  let st3 ← add_benchmark st2 [("CWL2", 0), ("CPWL2", 0)] "sm"
  let st4 ← add_benchmark st3 [("CWL2", 76/5), ("CPWL2", 1/10)] "w"
  let st5 ← add_benchmark st4 [("CWL2", -77/5), ("CPWL2", 1/5)] "neg_w"
  let st6 ← add_benchmark st5 [("CWL2", 3/10), ("CPWL2", 151/10)] "ww"
  let st7 ← add_benchmark st6 [("CWL2", 2/5), ("CPWL2", -153/10)] "neg_ww"
  pure (set_morphing st7 true 2)

/-- The tutorial parameter registry, written out. -/
def tutorialParameters : List Parameter :=
  [Parameter.mk "CWL2" "dim6" 2 [2] (-20, 20) (some "16.52*theta"),
   Parameter.mk "CPWL2" "dim6" 5 [2] (-20, 20) (some "16.52*theta")]

/-- The tutorial benchmark registry, written out. -/
def tutorialBenchmarks : List Benchmark :=
  [Benchmark.mk "sm" [("CWL2", 0), ("CPWL2", 0)],
   Benchmark.mk "w" [("CWL2", 76/5), ("CPWL2", 1/10)],
   Benchmark.mk "neg_w" [("CWL2", -77/5), ("CPWL2", 1/5)],
   Benchmark.mk "ww" [("CWL2", 3/10), ("CPWL2", 151/10)],
   Benchmark.mk "neg_ww" [("CWL2", 2/5), ("CPWL2", -153/10)]]

/-- The tutorial state just before morphing. -/
def tutorialReady : MadMinerState :=
  MadMinerState.mk tutorialParameters tutorialBenchmarks none

/-- The state after the notebook's morphing setup. -/
def tutorialMorphed : MadMinerState :=
  set_morphing tutorialReady true 2

/-- The committed morphing setup of the tutorial scenario. -/
def tutorialMorpher : Morpher :=
  tutorialMorphed.morpher.getD (Morpher.mk [] [] 0)

/-- The tutorial component tuples, as a function on `Fin 6`. -/
def tutorialComps : Fin 6 → List Nat :=
  fun i => tutorialMorpher.components.getD i.val []

/-- The tutorial basis points, as a function on `Fin 6`. -/
def tutorialPts : Fin 6 → List ℚ :=
  fun i => (tutorialMorpher.basis.map (benchmarkPoint tutorialMorphed.parameters)).getD i.val []

/-- An explicit right inverse of the tutorial design matrix. -/
def tutorialInverse : Matrix (Fin 6) (Fin 6) ℚ :=
  !![(1 : ℚ), (2540046157181 : ℚ)/23352805062550, (-63354738393 : ℚ)/11676402531275, (216506016609 : ℚ)/4670561012510, (-1462691324729 : ℚ)/4670561012510, (-125275042321 : ℚ)/23352805062550;
    (0 : ℚ), (-10176665956 : ℚ)/467056101251, (78730396 : ℚ)/467056101251, (11061023310 : ℚ)/467056101251, (29204962945 : ℚ)/467056101251, (1106102331 : ℚ)/467056101251;
    (0 : ℚ), (47051513201 : ℚ)/467056101251, (-450646946 : ℚ)/467056101251, (5215040190 : ℚ)/467056101251, (-134511542295 : ℚ)/467056101251, (521504019 : ℚ)/467056101251;
    (0 : ℚ), (15283571636 : ℚ)/467056101251, (1020241944 : ℚ)/467056101251, (-72326160 : ℚ)/467056101251, (810408980 : ℚ)/467056101251, (-7232616 : ℚ)/467056101251;
    (0 : ℚ), (-14894217876 : ℚ)/467056101251, (1001529216 : ℚ)/467056101251, (69084010 : ℚ)/467056101251, (-767623305 : ℚ)/467056101251, (6908401 : ℚ)/467056101251;
    (0 : ℚ), (-4403256207431 : ℚ)/23352805062550, (22108373143 : ℚ)/11676402531275, (-379234230109 : ℚ)/4670561012510, (2515329261479 : ℚ)/4670561012510, (43910935571 : ℚ)/23352805062550]

/-- Vector-literal evaluation at index 5, missing from the library's
`cons_val_zero` … `cons_val_four` family. -/
@[simp] theorem cons_val_five {α : Type} {m : Nat} (x : α)
    (u : Fin (m + 5) → α) :
    Matrix.vecCons x u 5 =
      Matrix.vecHead (Matrix.vecTail (Matrix.vecTail (Matrix.vecTail (Matrix.vecTail u)))) :=
  rfl

/-- The tutorial basis points, written out. -/
def ptsVec : Fin 6 → List ℚ :=
  ![[0, 0], [76/5, 1/10], [-77/5, 1/5], [3/10, 151/10], [2/5, -153/10], [-10, 0]]

/-- The tutorial component tuples, written out. -/
def compsVec : Fin 6 → List Nat :=
  ![[0,0],[0,1],[0,2],[1,0],[1,1],[2,0]]

/-- The optimizer-generated sixth basis point of the tutorial scenario. -/
theorem tutorialPts_five : tutorialPts 5 = [-10, 0] := by
  have h : tutorialPts 5 =
      benchmarkPoint tutorialParameters (newBenchmark tutorialParameters 1 0) := rfl
  rw [h]
  simp [benchmarkPoint, newBenchmark, newBasisPoint, lookupValue, paramNames,
    tutorialParameters, List.enum]
  norm_num

/-- The tutorial basis points agree with the written-out list. -/
theorem tutorialPts_eq : tutorialPts = ptsVec := by
  funext i
  fin_cases i
  · exact rfl
  · exact rfl
  · exact rfl
  · exact rfl
  · exact rfl
  · exact tutorialPts_five.trans rfl

/-- The tutorial components agree with the written-out list. -/
theorem tutorialComps_eq : tutorialComps = compsVec := by
  funext i
  fin_cases i <;> exact rfl

/-- The tutorial design matrix, written out. -/
def Aexp : Matrix (Fin 6) (Fin 6) ℚ :=
  !![1, 1, 1, 1, 1, 1;
     0, 1/10, 1/5, 151/10, -153/10, 0;
     0, 1/100, 1/25, 22801/100, 23409/100, 0;
     0, 76/5, -77/5, 3/10, 2/5, -10;
     0, 38/25, -77/25, 453/100, -153/25, 0;
     0, 5776/25, 5929/25, 9/100, 4/25, 100]

/-- The tutorial design matrix agrees with the written-out matrix. -/
theorem tutorialDesign_eq : designMatrix 6 compsVec ptsVec = Aexp := by
  ext i j
  fin_cases i <;> fin_cases j <;>
    (simp [designMatrix, monomial, compsVec, ptsVec, Aexp, Matrix.vecHead, Matrix.vecTail]
     <;> norm_num)

/-- The written-out inverse really is a right inverse of the tutorial design
matrix. -/
theorem tutorialDesign_mul_inverse : Aexp * tutorialInverse = 1 := by
  ext i j
  fin_cases i <;> fin_cases j <;>
    (simp [Matrix.mul_apply, Fin.sum_univ_six, Aexp, tutorialInverse, Matrix.one_apply,
      Matrix.vecHead, Matrix.vecTail]
     <;> norm_num)

/-- The single-parameter scenario: one parameter with maximum power 2 and
overall cap 2, with benchmarks at 0, 1 and 2. -/
def vanderComps : Fin 3 → List Nat := ![[0], [1], [2]]

/-- The single-parameter scenario's basis points. -/
def vanderPts : Fin 3 → List ℚ := ![[0], [1], [2]]

/-- The single-parameter design matrix is nonsingular. -/
theorem vanderDet_ne_zero : (designMatrix 3 vanderComps vanderPts).det ≠ 0 := by
  simp [Matrix.det_fin_three, designMatrix, monomial, vanderComps, vanderPts,
    Matrix.vecHead, Matrix.vecTail]
  norm_num

/-- The saved form of a state with a committed morphing setup. -/
def savedOf (st : MadMinerState) (m : Morpher) : SavedSetup :=
  SavedSetup.mk st.parameters m.components m.basis m.maxOverallPower

/-! ### Claim theorems -/

/-- C1: for the tutorial's two parameters with maximum individual power 2 and
overall cap 2, the component enumeration yields exactly the six components
(0,0),(1,0),(2,0),(0,1),(0,2),(1,1) as a set; the setup script succeeds, and
morphing with the five pre-defined benchmarks and keep-existing enabled
produces a basis of exactly six points whose 6x6 design matrix is
invertible. -/
theorem tutorial_basis_six_invertible :
    tutorialSetup = Except.ok tutorialMorphed ∧
    tutorialMorpher.components.length = 6 ∧
    tutorialMorpher.components.toFinset =
      ([[0,0],[1,0],[2,0],[0,1],[0,2],[1,1]] : List (List Nat)).toFinset ∧
    tutorialMorpher.basis.length = 6 ∧
    (tutorialMorpher.basis.map Benchmark.name).take 5 = ["sm","w","neg_w","ww","neg_ww"] ∧
    IsUnit (designMatrix 6 tutorialComps tutorialPts) := by
  refine ⟨rfl, by decide, by decide, by decide, by decide, ?_⟩
  rw [tutorialComps_eq, tutorialPts_eq, tutorialDesign_eq]
  have := Matrix.invertibleOfRightInverse Aexp tutorialInverse tutorialDesign_mul_inverse
  exact isUnit_of_invertible Aexp

/-- C2: for every square basis with nonsingular design matrix, the weights at
the k-th benchmark's own point form the standard basis vector at position
k. -/
theorem weights_at_benchmark_identity (n : Nat) (comps : Fin n → List Nat)
    (pts : Fin n → List ℚ) (k : Fin n)
    (h : (designMatrix n comps pts).det ≠ 0) :
    weights_at n comps pts (pts k) = Pi.single k 1 := by
  have hv : componentVector n comps (pts k) =
      (designMatrix n comps pts).mulVec (Pi.single k 1) := by
    funext c
    simp [componentVector, designMatrix, Matrix.mulVec_single]
  unfold weights_at
  rw [hv, Matrix.mulVec_mulVec, Matrix.adjugate_mul, Matrix.smul_mulVec_assoc,
    Matrix.one_mulVec, smul_smul, inv_mul_cancel₀ h, one_smul]

/-- Witness for C2: the single-parameter scenario (max power 2, cap 2,
benchmarks 0, 1, 2) queried at benchmark 1's own value yields the identity
selector for benchmark 1. -/
theorem weights_at_benchmark_identity_witness :
    weights_at 3 vanderComps vanderPts (vanderPts 1) = Pi.single 1 1 :=
  weights_at_benchmark_identity 3 vanderComps vanderPts 1 vanderDet_ne_zero

/-- C3: for every query point and fixed nonsingular basis, the weights sum to
1 whenever some component is the all-zero exponent tuple. -/
theorem weights_partition_of_unity (n : Nat) (comps : Fin n → List Nat)
    (pts : Fin n → List ℚ) (query : List ℚ) (c0 : Fin n)
    (h : (designMatrix n comps pts).det ≠ 0)
    (hz : ∀ e ∈ comps c0, e = 0) :
    ∑ b, weights_at n comps pts query b = 1 := by
  have hrow := congrFun (weights_at_solves n comps pts query h) c0
  simp only [Matrix.mulVec, Matrix.dotProduct] at hrow
  have hq : componentVector n comps query c0 = 1 := monomial_all_zero _ _ hz
  rw [hq] at hrow
  calc ∑ b, weights_at n comps pts query b
      = ∑ b, designMatrix n comps pts c0 b * weights_at n comps pts query b := by
        refine Finset.sum_congr rfl fun b _ => ?_
        rw [show designMatrix n comps pts c0 b = 1 from monomial_all_zero _ _ hz, one_mul]
    _ = 1 := hrow

/-- Witness for C3: in the single-parameter scenario the weights at the query
point 7 sum to 1 (the constant component is component 0). -/
theorem weights_partition_of_unity_witness :
    ∑ b, weights_at 3 vanderComps vanderPts [7] b = 1 :=
  weights_partition_of_unity 3 vanderComps vanderPts [7] 0 vanderDet_ne_zero (by decide)

/-- C4: every enumerated component respects the per-parameter bounds and the
overall cap, and the enumeration has no duplicates. -/
theorem components_respect_power_bounds (ps : List Nat) (cap : Nat) :
    (∀ c ∈ enumerate_components ps cap,
      List.Forall₂ (· ≤ ·) c ps ∧ c.sum ≤ cap) ∧
    (enumerate_components ps cap).Nodup :=
  ⟨fun _ hc => mem_enumerate_components.mp hc, enumerate_components_nodup ps cap⟩

/-- Witness for C4: the component (1,1) of the tutorial enumeration respects
the bounds, and that enumeration has no duplicates. -/
theorem components_respect_power_bounds_witness :
    (List.Forall₂ (· ≤ ·) [1, 1] [2, 2] ∧ [1, 1].sum ≤ 2) ∧
    (enumerate_components [2, 2] 2).Nodup :=
  ⟨(components_respect_power_bounds [2, 2] 2).1 [1, 1] (by decide),
   (components_respect_power_bounds [2, 2] 2).2⟩

/-- C5: the component enumeration is strictly lexicographically sorted (hence
a canonical, deterministic order), equal calls give identical lists, the
two-parameter example enumerates in lexicographic order, and `set_morphing`
commits exactly this ordered list for the matrices. -/
theorem components_lex_deterministic (ps : List Nat) (cap : Nat) :
    (enumerate_components ps cap).Pairwise (List.Lex (· < ·)) ∧
    (∀ ps2 cap2, ps2 = ps → cap2 = cap →
      enumerate_components ps2 cap2 = enumerate_components ps cap) ∧
    enumerate_components [2, 2] 2 = [[0,0],[0,1],[0,2],[1,0],[1,1],[2,0]] ∧
    ∀ st b, (set_morphing st b cap).morpher =
      some (Morpher.mk (enumerate_components (paramMaxPowers st.parameters) cap)
        (optimize_basis st.parameters
          (enumerate_components (paramMaxPowers st.parameters) cap) st.benchmarks b)
        cap) := by
  refine ⟨enumerate_components_sorted ps cap, ?_, by decide, fun st b => rfl⟩
  rintro ps2 cap2 rfl rfl
  rfl

/-- Witness for C5: the tutorial enumeration instantiated concretely. -/
theorem components_lex_deterministic_witness :
    (enumerate_components [2, 2] 2).Pairwise (List.Lex (· < ·)) ∧
    enumerate_components [2, 2] 2 = enumerate_components [2, 2] 2 ∧
    (set_morphing tutorialReady true 2).morpher =
      some (Morpher.mk (enumerate_components (paramMaxPowers tutorialReady.parameters) 2)
        (optimize_basis tutorialReady.parameters
          (enumerate_components (paramMaxPowers tutorialReady.parameters) 2)
          tutorialReady.benchmarks true) 2) :=
  ⟨(components_lex_deterministic [2, 2] 2).1,
   (components_lex_deterministic [2, 2] 2).2.1 [2, 2] 2 rfl rfl,
   (components_lex_deterministic [2, 2] 2).2.2.2 tutorialReady true⟩

/-- C6: with keep-existing the caller-supplied benchmarks are an unchanged
ordered front segment of the returned basis and exactly
`len components - len existing` new points are added; without keep-existing
the supplied benchmarks are ignored and a full basis is chosen; the optimizer
step leaves the engine state untouched. -/
theorem optimize_basis_keep_fresh_frame (params : List Parameter)
    (components : List (List Nat)) (existing : List Benchmark)
    (h : existing.length ≤ components.length) :
    (optimize_basis params components existing true).take existing.length = existing ∧
    (optimize_basis params components existing true).length = components.length ∧
    ((optimize_basis params components existing true).drop existing.length).length =
      components.length - existing.length ∧
    optimize_basis params components existing false =
      optimize_basis params components [] false ∧
    (optimize_basis params components existing false).length = components.length ∧
    ∀ st b comps2, (runOptimizer st b comps2).2 = st := by
  have hlen : (optimize_basis params components existing true).length = components.length := by
    simp only [optimize_basis, if_true, List.length_append, List.length_map,
      List.length_range]
    omega
  refine ⟨List.take_left existing _, hlen, ?_, rfl, ?_, fun st b c => rfl⟩
  · rw [List.length_drop, hlen]
  · simp [optimize_basis]

/-- Witness for C6: the tutorial optimizer call. -/
theorem optimize_basis_keep_fresh_frame_witness :
    (optimize_basis tutorialParameters (enumerate_components [2, 2] 2)
        tutorialBenchmarks true).take tutorialBenchmarks.length = tutorialBenchmarks ∧
    (optimize_basis tutorialParameters (enumerate_components [2, 2] 2)
        tutorialBenchmarks true).length = (enumerate_components [2, 2] 2).length ∧
    optimize_basis tutorialParameters (enumerate_components [2, 2] 2)
        tutorialBenchmarks false =
      optimize_basis tutorialParameters (enumerate_components [2, 2] 2) [] false ∧
    (runOptimizer tutorialReady true (enumerate_components [2, 2] 2)).2 = tutorialReady :=
  let t := optimize_basis_keep_fresh_frame tutorialParameters
    (enumerate_components [2, 2] 2) tutorialBenchmarks (by decide)
  ⟨t.1, t.2.1, t.2.2.2.1, t.2.2.2.2.2 tutorialReady true (enumerate_components [2, 2] 2)⟩

/-- C7: `add_benchmark` fails with `UnknownParameterError` when the values
reference an unregistered parameter, with `MissingParameterError` when a
registered parameter is omitted, with `DuplicateBenchmarkError` on a name
collision, and otherwise succeeds with no range check on the values. -/
theorem add_benchmark_error_cases (st : MadMinerState)
    (values : List (String × ℚ)) (bname : String) :
    (¬ values.all (fun kv => (paramNames st.parameters).contains kv.1) →
      add_benchmark st values bname = Except.error MorphError.UnknownParameterError) ∧
    (values.all (fun kv => (paramNames st.parameters).contains kv.1) →
      ¬ (paramNames st.parameters).all (fun n => (lookupValue values n).isSome) →
      add_benchmark st values bname = Except.error MorphError.MissingParameterError) ∧
    (values.all (fun kv => (paramNames st.parameters).contains kv.1) →
      (paramNames st.parameters).all (fun n => (lookupValue values n).isSome) →
      bname ∈ benchmarkNames st.benchmarks →
      add_benchmark st values bname = Except.error MorphError.DuplicateBenchmarkError) ∧
    (values.all (fun kv => (paramNames st.parameters).contains kv.1) →
      (paramNames st.parameters).all (fun n => (lookupValue values n).isSome) →
      bname ∉ benchmarkNames st.benchmarks →
      add_benchmark st values bname = Except.ok (MadMinerState.mk st.parameters
        (st.benchmarks ++ [Benchmark.mk bname values]) st.morpher)) := by
  refine ⟨fun h1 => ?_, fun h1 h2 => ?_, fun h1 h2 h3 => ?_, fun h1 h2 h3 => ?_⟩
  · unfold add_benchmark
    rw [if_pos h1]
  · unfold add_benchmark
    rw [if_neg (not_not_intro h1), if_pos h2]
  · unfold add_benchmark
    rw [if_neg (not_not_intro h1), if_neg (not_not_intro h2), if_pos h3]
  · unfold add_benchmark
    rw [if_neg (not_not_intro h1), if_neg (not_not_intro h2), if_neg h3]

/-- Witness for C7: a benchmark with a value far outside the declared range
(-20, 20) is accepted, and an unregistered name is rejected. -/
theorem add_benchmark_error_cases_witness :
    add_benchmark tutorialReady [("CWL2", 1000), ("CPWL2", 0)] "huge" =
      Except.ok (MadMinerState.mk tutorialParameters
        (tutorialBenchmarks ++ [Benchmark.mk "huge" [("CWL2", 1000), ("CPWL2", 0)]]) none) ∧
    add_benchmark tutorialReady [("XYZ", 0)] "x" =
      Except.error MorphError.UnknownParameterError :=
  ⟨(add_benchmark_error_cases tutorialReady [("CWL2", 1000), ("CPWL2", 0)] "huge").2.2.2
      (by decide) (by decide) (by decide),
   (add_benchmark_error_cases tutorialReady [("XYZ", 0)] "x").1 (by decide)⟩

/-- C8: `add_parameter` fails with `DuplicateParameterError` on a repeated
name, with `InvalidRangeError` unless the lower bound is strictly below the
upper bound, with `InvalidPowerError` when the maximum power does not
normalize (exactly when a scalar power is negative), and otherwise registers
the parameter immediately. -/
theorem add_parameter_error_cases (st : MadMinerState) (block : String)
    (id : Int) (pname : String) (mp : MaxPowerInput) (lo hi : ℚ)
    (tr : Option String) (p : Int) :
    (pname ∈ paramNames st.parameters →
      add_parameter st block id pname mp (lo, hi) tr =
        Except.error MorphError.DuplicateParameterError) ∧
    (pname ∉ paramNames st.parameters → ¬ lo < hi →
      add_parameter st block id pname mp (lo, hi) tr =
        Except.error MorphError.InvalidRangeError) ∧
    (pname ∉ paramNames st.parameters → lo < hi →
      normalizeMaxPower mp = none →
      add_parameter st block id pname mp (lo, hi) tr =
        Except.error MorphError.InvalidPowerError) ∧
    (∀ ps, pname ∉ paramNames st.parameters → lo < hi →
      normalizeMaxPower mp = some ps →
      add_parameter st block id pname mp (lo, hi) tr =
        Except.ok (MadMinerState.mk
          (st.parameters ++ [Parameter.mk pname block id ps (lo, hi) tr])
          st.benchmarks st.morpher)) ∧
    (normalizeMaxPower (MaxPowerInput.scalar p) = none ↔ p < 0) := by
  refine ⟨fun h1 => ?_, fun h1 h2 => ?_, fun h1 h2 hn => ?_, fun ps h1 h2 hn => ?_, ?_⟩
  · unfold add_parameter
    rw [if_pos h1]
  · unfold add_parameter
    rw [if_neg h1, if_pos h2]
  · unfold add_parameter
    rw [if_neg h1, if_neg (not_not_intro h2), hn]
  · unfold add_parameter
    rw [if_neg h1, if_neg (not_not_intro h2), hn]
  · by_cases hp : p < 0
    · simp [normalizeMaxPower, hp]
    · simp [normalizeMaxPower, hp]

/-- Witness for C8: registering CWL2 on the empty registry succeeds, and a
negative scalar power does not normalize. -/
theorem add_parameter_error_cases_witness :
    add_parameter emptyState "dim6" 2 "CWL2" (MaxPowerInput.scalar 2) (-20, 20)
        (some "16.52*theta") =
      Except.ok (MadMinerState.mk
        [Parameter.mk "CWL2" "dim6" 2 [2] (-20, 20) (some "16.52*theta")] [] none) ∧
    (normalizeMaxPower (MaxPowerInput.scalar (-1)) = none ↔ (-1 : Int) < 0) :=
  let t := add_parameter_error_cases emptyState "dim6" 2 "CWL2"
    (MaxPowerInput.scalar 2) (-20) 20 (some "16.52*theta") (-1)
  ⟨t.2.2.2.1 [2] (by decide) (by decide) (by decide), t.2.2.2.2⟩

/-- C9: saving a committed setup and reloading it under unchanged parameter
and component definitions succeeds, reproduces the state (in particular the
identical ordered benchmark list), and any state the load yields gives
identical weights at every query point. -/
theorem save_load_roundtrip (st : MadMinerState) (m : Morpher)
    (h1 : st.morpher = some m) (h2 : st.benchmarks = m.basis)
    (h3 : enumerate_components (paramMaxPowers st.parameters) m.maxOverallPower =
      m.components) :
    save st = some (savedOf st m) ∧
    load (savedOf st m) = Except.ok st ∧
    ∀ st2, load (savedOf st m) = Except.ok st2 →
      st2.benchmarks = st.benchmarks ∧ st2.morpher = st.morpher ∧
      ∀ query m2, st2.morpher = some m2 →
        morphWeights st2.parameters m2 query = morphWeights st.parameters m query := by
  obtain ⟨params, bms, mo⟩ := st
  replace h1 : mo = some m := h1
  replace h2 : bms = m.basis := h2
  subst h1
  subst h2
  have hload : load (savedOf (MadMinerState.mk params m.basis (some m)) m) =
      Except.ok (MadMinerState.mk params m.basis (some m)) := by
    unfold load savedOf
    rw [if_pos h3]
  refine ⟨rfl, hload, ?_⟩
  intro st2 hst2
  have hst2' := hload.symm.trans hst2
  injection hst2' with h4
  subst h4
  refine ⟨rfl, rfl, ?_⟩
  intro query m2 hm2
  replace hm2 : some m = some m2 := hm2
  injection hm2 with h5
  subst h5
  rfl

/-- Witness for C9: the tutorial morphing state round-trips through save and
load. -/
theorem save_load_roundtrip_witness :
    save tutorialMorphed = some (savedOf tutorialMorphed tutorialMorpher) ∧
    load (savedOf tutorialMorphed tutorialMorpher) = Except.ok tutorialMorphed ∧
    morphWeights tutorialMorphed.parameters tutorialMorpher [3, 5] =
      morphWeights tutorialMorphed.parameters tutorialMorpher [3, 5] :=
  let t := save_load_roundtrip tutorialMorphed tutorialMorpher rfl rfl rfl
  ⟨t.1, t.2.1, (t.2.2 tutorialMorphed t.2.1).2.2 [3, 5] tutorialMorpher rfl⟩

/-- C10: a scalar `morphing_max_power` is recorded as the one-element tuple
of per-class maxima, so every registered parameter's maximum power has the
tuple shape. -/
theorem add_parameter_scalar_tuple (st : MadMinerState) (block : String)
    (id : Int) (pname : String) (p : Int) (r : ℚ × ℚ) (tr : Option String)
    (st2 : MadMinerState)
    (h : add_parameter st block id pname (MaxPowerInput.scalar p) r tr =
      Except.ok st2) :
    st2.parameters = st.parameters ++ [Parameter.mk pname block id [p.toNat] r tr] ∧
    (Parameter.mk pname block id [p.toNat] r tr).maxPower.length = 1 := by
  unfold add_parameter normalizeMaxPower at h
  by_cases h1 : pname ∈ paramNames st.parameters
  · rw [if_pos h1] at h
    exact absurd h (by simp)
  · rw [if_neg h1] at h
    by_cases h2 : ¬ r.1 < r.2
    · rw [if_pos h2] at h
      exact absurd h (by simp)
    · rw [if_neg h2] at h
      by_cases h3 : p < 0
      · simp [h3] at h
      · simp only [h3, if_false] at h
        injection h with h4
        subst h4
        exact ⟨rfl, rfl⟩

/-- Witness for C10: the tutorial's first `add_parameter` call records the
scalar power 2 as the tuple (2,). -/
theorem add_parameter_scalar_tuple_witness :
    (MadMinerState.mk
        [Parameter.mk "CWL2" "dim6" 2 [2] (-20, 20) (some "16.52*theta")] [] none).parameters =
      emptyState.parameters ++
        [Parameter.mk "CWL2" "dim6" 2 [(2 : Int).toNat] (-20, 20) (some "16.52*theta")] ∧
    (Parameter.mk "CWL2" "dim6" 2 [(2 : Int).toNat] (-20, 20)
        (some "16.52*theta")).maxPower.length = 1 :=
  add_parameter_scalar_tuple emptyState "dim6" 2 "CWL2" 2 (-20, 20)
    (some "16.52*theta")
    (MadMinerState.mk [Parameter.mk "CWL2" "dim6" 2 [2] (-20, 20) (some "16.52*theta")] [] none)
    rfl

end MadMiner
